import Mathlib

/-!
# Storefront backend: cart-and-catalog core, shallow embedding

Shallow embedding of `src/main.py` (FastAPI storefront backend): the
document projector `to_public_doc`, ObjectId validation, the catalog
reads `list_products` and `get_product`, and the cart engine
(`get_cart`, `add_to_cart`, `remove_from_cart`).  MongoDB documents are
modelled as association lists of string keys to values; the store is a
list of documents, `find_one` is the first match, `find` keeps order.
Python floats are abstracted as rationals.
-/

namespace Storefront

/-- A scalar stored value. -/
inductive Prim where
  | str : String → Prim
  | num : ℚ → Prim
  | bool : Bool → Prim
  | null : Prim
deriving Repr, DecidableEq

/-- A stored value.  `oid` is a BSON ObjectId carried as its 24-character
lowercase hex string.  Documents in this repository nest at most two
levels — scalar fields, arrays of scalars (images, tags, product_ids) and
arrays of flat dicts (variants) — so the value universe is stratified
accordingly. -/
inductive Val where
  | oid : String → Val
  | prim : Prim → Val
  | arr : List Prim → Val
  | docArr : List (List (String × Prim)) → Val
deriving Repr, DecidableEq

/-- Shorthand for a string-valued field. -/
def Val.str (s : String) : Val := .prim (.str s)

/-- Shorthand for a numeric field. -/
def Val.num (q : ℚ) : Val := .prim (.num q)

/-- Shorthand for a boolean field. -/
def Val.bool (b : Bool) : Val := .prim (.bool b)

/-- Python `str` applied to a stored value.  The code only ever applies
`str` to an `"_id"` field, which in this store always holds an ObjectId
whose `str` form is its hex string; the rendering of container values
never occurs and is abstracted by a tag. -/
def pyStr : Val → String
  | .oid s => s
  | .prim (.str s) => s
  | .prim (.num q) => toString q
  | .prim (.bool true) => "True"
  | .prim (.bool false) => "False"
  | .prim .null => "None"
  | .arr _ => "<list>"
  | .docArr _ => "<list>"

/-- A MongoDB document: insertion-ordered mapping from keys to values
(Python dict), modelled as an association list. -/
abbrev Doc := List (String × Val)

/-- Python `doc.get(k)` and `k in doc`: value of the first entry with key `k`. -/
def lookupKey : Doc → String → Option Val
  | [], _ => none
  | p :: rest, k => if p.1 == k then some p.2 else lookupKey rest k

/-- Python `d.pop(k)` as it acts on the dict: remove the entry with key `k`. -/
def eraseKey (d : Doc) (k : String) : Doc :=
  d.filter (fun p => p.1 ≠ k)

/-- Python `d[k] = v` on a dict: update in place if the key exists
(position preserved), otherwise append at the end. -/
def setKey (d : Doc) (k : String) (v : Val) : Doc :=
  if d.any (fun p => p.1 == k) then
    d.map (fun p => if p.1 == k then (k, v) else p)
  else d ++ [(k, v)]

/-- The projector `to_public_doc` (src/main.py:38-44): empty/absent input unchanged;
otherwise copy, and if `"_id"` is present pop it and set
`"id" = str(_id)`. -/
def to_public_doc (doc : Doc) : Doc :=
  if doc.isEmpty then doc
  else
    match lookupKey doc "_id" with
    | some v => setKey (eraseKey doc "_id") "id" (Val.str (pyStr v))
    | none => doc

/-- Hex digit test for ObjectId validation. -/
def isHexChar (c : Char) : Bool :=
  (decide (Char.ofNat 48 ≤ c) && decide (c ≤ Char.ofNat 57)) ||
  (decide (Char.ofNat 97 ≤ c) && decide (c ≤ Char.ofNat 102)) ||
  (decide (Char.ofNat 65 ≤ c) && decide (c ≤ Char.ofNat 70))

/-- Construction `ObjectId(s)` succeeds exactly on 24-character hex strings (the bson
ObjectId string format); otherwise it raises. -/
def isValidObjectId (s : String) : Bool :=
  s.length == 24 && s.data.all isHexChar

/-- Lower-case a hex digit. -/
def lowerHexChar (c : Char) : Char :=
  if decide (Char.ofNat 65 ≤ c) && decide (c ≤ Char.ofNat 70) then
    Char.ofNat (c.toNat + 32)
  else c

/-- ObjectId equality is on the 12 decoded bytes, so hex-string case is
normalised before comparing with stored (lowercase) ids. -/
def normalizeObjectId (s : String) : String := ⟨s.data.map lowerHexChar⟩

/-- Route `list_products` (src/main.py:89-97): build `query` from the optional
`featured` flag, `db.product.find(query).limit(50)`, project each doc. -/
def list_products (store : List Doc) (featured : Option Bool) : List Doc :=
  let query : List (String × Val) :=
    match featured with
    | none => []
    | some b => [("featured", Val.bool b)]
  let products :=
    (store.filter (fun d => query.all (fun p => lookupKey d p.1 == some p.2))).take 50
  products.map to_public_doc

/-- Route `get_product` (src/main.py:100-110).  Inside the `try` block:
`ObjectId(product_id)` raises on a malformed id; `find_one` by `_id`;
`raise HTTPException(404)` when absent; else return the projected doc.
`HTTPException` subclasses `Exception`, so the blanket
`except Exception: raise HTTPException(400, "Invalid id")` converts
every failure of the try block — the 404 included — into a 400. -/
def get_product (store : List Doc) (product_id : String) :
    Except (Nat × String) Doc :=
  let tryBlock : Except (Nat × String) Doc :=
    if isValidObjectId product_id then
      match store.find? (fun d =>
          lookupKey d "_id" == some (Val.oid (normalizeObjectId product_id))) with
      | some prod => .ok (to_public_doc prod)
      | none => .error (404, "Not found")
    else
      .error (422, "InvalidId")
  match tryBlock with
  | .ok d => .ok d
  | .error _ => .error (400, "Invalid id")

/-! ## Cart engine -/

/-- A stored cart line item: a free-form dict in the cart document.
Every field is optional because stored items are schema-less and the code
reads them with `i.get(...)`; `none` models an absent key (and a key
stored as `None`, which `get` treats the same way). -/
structure ItemDoc where
  product_id : Option String := none
  title : Option String := none
  price : Option ℚ := none
  image : Option String := none
  quantity : Option ℤ := none
  variant : Option String := none
deriving Repr, DecidableEq

/-- The validated `CartItem` request model (src/main.py:50-56).  Pydantic
enforces `1 ≤ quantity ≤ 10` at the HTTP boundary; that boundary
constraint is `validItem` below. -/
structure CartItem where
  product_id : String
  title : String
  price : ℚ
  image : Option String := none
  quantity : ℤ := 1
  variant : Option String := none
deriving Repr, DecidableEq

/-- Constraint `Field(1, ge=1, le=10)`: the pydantic bound on `CartItem.quantity`. -/
def validItem (it : CartItem) : Prop := 1 ≤ it.quantity ∧ it.quantity ≤ 10

/-- Python `payload.item.model_dump()`: the incoming item as a stored dict;
every schema field is present. -/
def dumpItem (it : CartItem) : ItemDoc :=
  { product_id := some it.product_id
    title := some it.title
    price := some it.price
    image := it.image
    quantity := some it.quantity
    variant := it.variant }

/-- A cart document: `{"session_id": ..., "items": [...]}`. -/
structure Cart where
  session_id : String
  items : List ItemDoc
deriving Repr, DecidableEq

/-- The `cart` collection.  `db.cart.find_one({"session_id": sid})` is the
first document with that session id; `update_one({"_id": cart["_id"]}, ...)`
rewrites exactly that document. -/
abbrev CartStore := List Cart

/-- Query `db.cart.find_one` by session id: first document with
the session id. -/
def findCart : CartStore → String → Option Cart
  | [], _ => none
  | c :: rest, sid => if c.session_id == sid then some c else findCart rest sid

/-- The items of the cart of the session, if a cart document exists. -/
def lookupCart (s : CartStore) (sid : String) : Option (List ItemDoc) :=
  (findCart s sid).map Cart.items

/-- The merge test of src/main.py:138:
`i.get("product_id") == item["product_id"] and i.get("variant") == item.get("variant")`. -/
def matchKey (i incoming : ItemDoc) : Bool :=
  i.product_id == incoming.product_id && i.variant == incoming.variant

/-- The merge-or-append loop of src/main.py:136-143: scan for the first
line whose (product_id, variant) key matches, clamp-merge its quantity
in place and stop; append the incoming item if no line matches. -/
def addItemToList : List ItemDoc → ItemDoc → List ItemDoc
  | [], incoming => [incoming]
  | i :: rest, incoming =>
    if matchKey i incoming then
      { i with quantity := some (min 10 (i.quantity.getD 1 + incoming.quantity.getD 1)) }
        :: rest
    else
      i :: addItemToList rest incoming

/-- Update `db.cart.update_one` by the found cart id with the new items:
replace the items of the (first) cart document for the session. -/
def updateCartItems : CartStore → String → List ItemDoc → CartStore
  | [], _, _ => []
  | c :: rest, sid, its =>
    if c.session_id == sid then { c with items := its } :: rest
    else c :: updateCartItems rest sid its

/-- Route `add_to_cart` (src/main.py:125-145): fetch the cart of the session; create
it with the single dumped item if absent, otherwise merge-or-append and
persist the full items sequence. -/
def add_to_cart (s : CartStore) (sid : String) (it : CartItem) : CartStore :=
  match findCart s sid with
  | none => s ++ [{ session_id := sid, items := [dumpItem it] }]
  | some cart => updateCartItems s sid (addItemToList cart.items (dumpItem it))

/-- The removal filter of src/main.py:155-157: drop every line whose
(product_id, variant) key matches the payload exactly. -/
def removeMatches (items : List ItemDoc) (pid : String) (variant : Option String) :
    List ItemDoc :=
  items.filter (fun i => !(i.product_id == some pid && i.variant == variant))

/-- Route `remove_from_cart` (src/main.py:148-159): no-op returning "ok" when
the cart is absent, otherwise persist the filtered sequence and return
"ok". -/
def remove_from_cart (s : CartStore) (sid pid : String) (variant : Option String) :
    CartStore × String :=
  match findCart s sid with
  | none => (s, "ok")
  | some cart => (updateCartItems s sid (removeMatches cart.items pid variant), "ok")

/-- Contribution of one line to the subtotal (src/main.py:121):
`i.get("price", 0) * i.get("quantity", 1)`. -/
def lineAmount (i : ItemDoc) : ℚ :=
  i.price.getD 0 * ((i.quantity.getD 1 : ℤ) : ℚ)

/-- Round to the nearest integer, ties to even — Python `round`
semantics, with floats abstracted as rationals. -/
def roundHalfEven (q : ℚ) : ℤ :=
  if q - ⌊q⌋ < 1/2 then ⌊q⌋
  else if q - ⌊q⌋ > 1/2 then ⌊q⌋ + 1
  else if ⌊q⌋ % 2 = 0 then ⌊q⌋ else ⌊q⌋ + 1

/-- Python `round(x, 2)`. -/
def round2 (q : ℚ) : ℚ := (roundHalfEven (q * 100) : ℚ) / 100

/-- The cart view returned by `get_cart`. -/
structure CartView where
  items : List ItemDoc
  subtotal : ℚ
deriving Repr, DecidableEq

/-- Route `get_cart` (src/main.py:113-122): empty view when no cart document
exists for the session, otherwise the stored items with
`round(sum(price * quantity), 2)`. -/
def get_cart (s : CartStore) (sid : String) : CartView :=
  match findCart s sid with
  | none => { items := [], subtotal := 0 }
  | some cart => { items := cart.items, subtotal := round2 (cart.items.map lineAmount).sum }

/-! ## Reachable cart states -/

/-- The per-line invariant: the quantity field is present and in [1,10]. -/
def goodItem (i : ItemDoc) : Bool :=
  match i.quantity with
  | some q => decide (1 ≤ q) && decide (q ≤ 10)
  | none => false

/-- The merge key of a line. -/
def itemKey (i : ItemDoc) : Option String × Option String := (i.product_id, i.variant)

/-- The cart-level invariant: every line is good and no two lines share a
(product_id, variant) key. -/
def goodItems (items : List ItemDoc) : Prop :=
  (∀ i ∈ items, goodItem i = true) ∧ (items.map itemKey).Nodup

/-- Every cart document in the store satisfies the cart-level invariant. -/
def CartInv (s : CartStore) : Prop := ∀ c ∈ s, goodItems c.items

/-- Cart stores reachable from the empty store by any sequence of
validated `add_to_cart` and `remove_from_cart` operations (every session
starts absent). -/
inductive Reachable : CartStore → Prop
  | init : Reachable []
  | add {s : CartStore} (sid : String) {it : CartItem} (hit : validItem it)
      (h : Reachable s) : Reachable (add_to_cart s sid it)
  | remove {s : CartStore} (sid pid : String) (variant : Option String)
      (h : Reachable s) : Reachable (remove_from_cart s sid pid variant).1

/-! ## Lemmas on documents and projection -/

theorem lookupKey_eraseKey_self (d : Doc) (k : String) :
    lookupKey (eraseKey d k) k = none := by
  induction d with
  | nil => rfl
  | cons p rest ih =>
    by_cases hk : p.1 = k
    · simpa [eraseKey, List.filter_cons, hk] using ih
    · simpa [eraseKey, List.filter_cons, hk, lookupKey] using ih

theorem lookupKey_eraseKey_ne (d : Doc) {k k' : String} (h : k' ≠ k) :
    lookupKey (eraseKey d k) k' = lookupKey d k' := by
  induction d with
  | nil => rfl
  | cons p rest ih =>
    by_cases hk : p.1 = k
    · simpa [eraseKey, List.filter_cons, hk, lookupKey, Ne.symm h] using ih
    · by_cases hp : p.1 = k'
      · simp [eraseKey, List.filter_cons, hk, lookupKey, hp, h]
      · simpa [eraseKey, List.filter_cons, hk, lookupKey, hp] using ih

theorem lookupKey_map_set_self (d : Doc) (k : String) (v : Val)
    (hd : d.any (fun p => p.1 == k) = true) :
    lookupKey (d.map (fun p => if p.1 == k then (k, v) else p)) k = some v := by
  induction d with
  | nil => simp at hd
  | cons q rest ih =>
    by_cases hq : q.1 = k
    · simp [lookupKey, hq]
    · simp only [List.any_cons, Bool.or_eq_true, beq_iff_eq, hq, false_or] at hd
      simpa [lookupKey, hq] using ih hd

theorem lookupKey_map_set_ne (d : Doc) {k k' : String} (h : k' ≠ k) (v : Val) :
    lookupKey (d.map (fun p => if p.1 == k then (k, v) else p)) k' = lookupKey d k' := by
  induction d with
  | nil => rfl
  | cons q rest ih =>
    by_cases hq : q.1 = k
    · simpa [lookupKey, hq, Ne.symm h] using ih
    · by_cases hp : q.1 = k'
      · simp [lookupKey, hq, hp, h]
      · simpa [lookupKey, hq, hp] using ih

theorem lookupKey_append_single_self (d : Doc) (k : String) (v : Val)
    (hd : ∀ p ∈ d, p.1 ≠ k) :
    lookupKey (d ++ [(k, v)]) k = some v := by
  induction d with
  | nil => simp [lookupKey]
  | cons q rest ih =>
    have hq := hd q (List.mem_cons_self q rest)
    simpa [lookupKey, hq] using ih fun p hp => hd p (List.mem_cons_of_mem q hp)

theorem lookupKey_append_single_ne (d : Doc) {k k' : String} (h : k' ≠ k) (v : Val) :
    lookupKey (d ++ [(k, v)]) k' = lookupKey d k' := by
  induction d with
  | nil => simp [lookupKey, Ne.symm h]
  | cons q rest ih =>
    by_cases hp : q.1 = k'
    · simp [lookupKey, hp]
    · simpa [lookupKey, hp] using ih

theorem lookupKey_setKey_self (d : Doc) (k : String) (v : Val) :
    lookupKey (setKey d k v) k = some v := by
  unfold setKey
  by_cases hd : d.any (fun p => p.1 == k) = true
  · rw [if_pos hd]; exact lookupKey_map_set_self d k v hd
  · rw [if_neg hd]
    simp only [Bool.not_eq_true, List.any_eq_false, beq_iff_eq] at hd
    exact lookupKey_append_single_self d k v fun p hp => by simpa using hd p hp

theorem lookupKey_setKey_ne (d : Doc) {k k' : String} (h : k' ≠ k) (v : Val) :
    lookupKey (setKey d k v) k' = lookupKey d k' := by
  unfold setKey
  by_cases hd : d.any (fun p => p.1 == k) = true
  · rw [if_pos hd]; exact lookupKey_map_set_ne d h v
  · rw [if_neg hd]; exact lookupKey_append_single_ne d h v

theorem lookupKey_to_public_doc_ne (doc : Doc) {k : String}
    (h1 : k ≠ "_id") (h2 : k ≠ "id") :
    lookupKey (to_public_doc doc) k = lookupKey doc k := by
  unfold to_public_doc
  by_cases he : doc.isEmpty
  · rw [if_pos he]
  · rw [if_neg he]
    cases hv : lookupKey doc "_id" with
    | none => rfl
    | some v =>
      rw [lookupKey_setKey_ne _ h2, lookupKey_eraseKey_ne _ h1]

/-! ## Claim theorems: projector and catalog -/

/-- C9: for every document, `to_public_doc` removes the internal `_id`
field and inserts a public `id` field holding its encoded string form,
while every field other than `_id` and the inserted `id` is looked up
unchanged (values, nested structures included, pass through untouched);
an empty/absent input is returned unchanged without error. -/
theorem to_public_doc_projects (doc : Doc) :
    (doc = [] → to_public_doc doc = doc) ∧
    ∀ v, lookupKey doc "_id" = some v →
      lookupKey (to_public_doc doc) "_id" = none ∧
      lookupKey (to_public_doc doc) "id" = some (Val.str (pyStr v)) ∧
      ∀ k, k ≠ "_id" → k ≠ "id" →
        lookupKey (to_public_doc doc) k = lookupKey doc k := by
  refine ⟨fun h => by rw [h]; rfl, fun v hv => ?_⟩
  have he : doc.isEmpty = false := by
    cases doc with
    | nil => simp [lookupKey] at hv
    | cons p rest => rfl
  have hd : to_public_doc doc = setKey (eraseKey doc "_id") "id" (Val.str (pyStr v)) := by
    simp [to_public_doc, he, hv]
  rw [hd]
  refine ⟨?_, lookupKey_setKey_self _ _ _, fun k h1 h2 => ?_⟩
  · rw [lookupKey_setKey_ne _ (by decide) _, lookupKey_eraseKey_self]
  · rw [lookupKey_setKey_ne _ h2 _, lookupKey_eraseKey_ne _ h1]

/-- Witness for the C9 theorem on a concrete two-field document. -/
theorem to_public_doc_projects_witness :
    lookupKey (to_public_doc [("_id", Val.oid "aaaaaaaaaaaaaaaaaaaaaaaa"),
      ("title", Val.str "Coat")]) "_id" = none ∧
    lookupKey (to_public_doc [("_id", Val.oid "aaaaaaaaaaaaaaaaaaaaaaaa"),
      ("title", Val.str "Coat")]) "id" = some (Val.str "aaaaaaaaaaaaaaaaaaaaaaaa") ∧
    lookupKey (to_public_doc [("_id", Val.oid "aaaaaaaaaaaaaaaaaaaaaaaa"),
      ("title", Val.str "Coat")]) "title" = some (Val.str "Coat") := by
  have h := (to_public_doc_projects [("_id", Val.oid "aaaaaaaaaaaaaaaaaaaaaaaa"),
    ("title", Val.str "Coat")]).2 (Val.oid "aaaaaaaaaaaaaaaaaaaaaaaa") (by rfl)
  exact ⟨h.1, h.2.1, h.2.2 "title" (by decide) (by decide)⟩

/-- C8: `list_products` with the `featured` flag returns exactly the
projections of the first 50 store documents whose `featured` field equals
the flag (so every returned document carries that value); with the flag
omitted it returns the projections of the unfiltered store capped at 50;
in both cases the result holds at most 50 documents. -/
theorem list_products_filters_and_caps (store : List Doc) (b : Bool) :
    list_products store (some b) =
      ((store.filter (fun d => lookupKey d "featured" == some (Val.bool b))).take 50).map
        to_public_doc ∧
    (∀ d ∈ list_products store (some b),
      lookupKey d "featured" = some (Val.bool b)) ∧
    list_products store none = (store.take 50).map to_public_doc ∧
    (list_products store (some b)).length ≤ 50 ∧
    (list_products store none).length ≤ 50 := by
  have h1 : list_products store (some b) =
      ((store.filter (fun d => lookupKey d "featured" == some (Val.bool b))).take 50).map
        to_public_doc := by
    simp [list_products]
  refine ⟨h1, fun d hd => ?_, by simp [list_products], ?_, ?_⟩
  · rw [h1] at hd
    rcases List.mem_map.mp hd with ⟨d0, hd0, rfl⟩
    have hmem := List.mem_of_mem_take hd0
    have hfeat : lookupKey d0 "featured" = some (Val.bool b) := by
      have h2 := (List.mem_filter.mp hmem).2
      simpa using h2
    rw [lookupKey_to_public_doc_ne d0 (by decide) (by decide), hfeat]
  · rw [h1]
    simp [List.length_map, List.length_take]
  · simp [list_products, List.length_map, List.length_take]

/-- Witness for the C8 theorem on a concrete two-document store. -/
theorem list_products_filters_and_caps_witness :
    lookupKey ([("featured", Val.bool true)] : Doc) "featured" = some (Val.bool true) ∧
    (list_products [[("featured", Val.bool true)], [("featured", Val.bool false)]]
      (some true)).length ≤ 50 := by
  have h := list_products_filters_and_caps
    [[("featured", Val.bool true)], [("featured", Val.bool false)]] true
  exact ⟨h.2.1 [("featured", Val.bool true)] (by rw [h.1]; decide), h.2.2.2.1⟩

/-- C1 (failing case exhibited): `get_product` on a syntactically valid
24-hex-character id that matches no stored document returns the client
error `(400, "Invalid id")`, not a 404 — the `raise HTTPException(404)`
sits inside the `try` block and `except Exception` swallows it.  A
malformed id also returns 400. -/
theorem get_product_absent_id_gives_400 :
    isValidObjectId "aaaaaaaaaaaaaaaaaaaaaaaa" = true ∧
    get_product [] "aaaaaaaaaaaaaaaaaaaaaaaa" = .error (400, "Invalid id") ∧
    get_product [[("_id", Val.oid "ffffffffffffffffffffffff"), ("title", Val.str "Coat")]]
      "aaaaaaaaaaaaaaaaaaaaaaaa" = .error (400, "Invalid id") ∧
    get_product [] "not-an-objectid" = .error (400, "Invalid id") := by
  refine ⟨by decide, by rfl, by rfl, by rfl⟩

/-! ## Lemmas on the cart engine -/

theorem findCart_mem {s : CartStore} {sid : String} {c : Cart}
    (h : findCart s sid = some c) : c ∈ s := by
  induction s with
  | nil => simp [findCart] at h
  | cons q rest ih =>
    by_cases hq : q.session_id = sid
    · rw [findCart, if_pos (by simpa using hq)] at h
      obtain rfl := Option.some.inj h
      exact List.mem_cons_self _ _
    · rw [findCart, if_neg (by simpa using hq)] at h
      exact List.mem_cons_of_mem q (ih h)

theorem lookupCart_eq_none {s : CartStore} {sid : String}
    (h : lookupCart s sid = none) : findCart s sid = none := by
  unfold lookupCart at h
  cases hf : findCart s sid with
  | none => rfl
  | some c => rw [hf] at h; simp at h

theorem lookupCart_eq_some {s : CartStore} {sid : String} {its : List ItemDoc}
    (h : lookupCart s sid = some its) :
    ∃ c : Cart, findCart s sid = some c ∧ c.items = its := by
  unfold lookupCart at h
  cases hf : findCart s sid with
  | none => rw [hf] at h; simp at h
  | some c =>
    rw [hf] at h
    exact ⟨c, rfl, by simpa using h⟩

theorem lookupCart_update {s : CartStore} {sid : String} {c : Cart}
    (h : findCart s sid = some c) (its : List ItemDoc) :
    lookupCart (updateCartItems s sid its) sid = some its := by
  induction s with
  | nil => simp [findCart] at h
  | cons q rest ih =>
    by_cases hq : q.session_id = sid
    · simp [updateCartItems, hq, lookupCart, findCart]
    · rw [findCart, if_neg (by simpa using hq)] at h
      rw [updateCartItems, if_neg (by simpa using hq)]
      unfold lookupCart
      rw [findCart, if_neg (by simpa using hq)]
      exact ih h

theorem mem_updateCartItems {s : CartStore} {sid : String} {its : List ItemDoc} {c : Cart}
    (h : c ∈ updateCartItems s sid its) : c ∈ s ∨ c.items = its := by
  induction s with
  | nil => simp [updateCartItems] at h
  | cons q rest ih =>
    by_cases hq : q.session_id = sid
    · rw [updateCartItems, if_pos (by simpa using hq)] at h
      rcases List.mem_cons.mp h with rfl | hm
      · right; rfl
      · left; exact List.mem_cons_of_mem q hm
    · rw [updateCartItems, if_neg (by simpa using hq)] at h
      rcases List.mem_cons.mp h with rfl | hm
      · left; exact List.mem_cons_self _ _
      · rcases ih hm with h1 | h2
        · left; exact List.mem_cons_of_mem q h1
        · right; exact h2

theorem findCart_append_single {s : CartStore} {sid : String}
    (h : findCart s sid = none) (c : Cart) (hc : c.session_id = sid) :
    findCart (s ++ [c]) sid = some c := by
  induction s with
  | nil => simp [findCart, hc]
  | cons q rest ih =>
    by_cases hq : q.session_id = sid
    · rw [findCart, if_pos (by simpa using hq)] at h
      exact absurd h (by simp)
    · rw [findCart, if_neg (by simpa using hq)] at h
      rw [List.cons_append, findCart, if_neg (by simpa using hq)]
      exact ih h

theorem lookupCart_add_new {s : CartStore} {sid : String}
    (h : lookupCart s sid = none) (it : CartItem) :
    lookupCart (add_to_cart s sid it) sid = some [dumpItem it] := by
  have hf := lookupCart_eq_none h
  unfold add_to_cart
  rw [hf]
  unfold lookupCart
  rw [findCart_append_single hf _ rfl]
  rfl

theorem lookupCart_add_existing {s : CartStore} {sid : String} {its : List ItemDoc}
    (h : lookupCart s sid = some its) (it : CartItem) :
    lookupCart (add_to_cart s sid it) sid = some (addItemToList its (dumpItem it)) := by
  obtain ⟨c, hf, rfl⟩ := lookupCart_eq_some h
  unfold add_to_cart
  rw [hf]
  exact lookupCart_update hf _

theorem matchKey_iff {i x : ItemDoc} : matchKey i x = true ↔ itemKey i = itemKey x := by
  simp [matchKey, itemKey, Prod.ext_iff]

theorem addItemToList_no_match {its : List ItemDoc} {x : ItemDoc}
    (h : ∀ i ∈ its, matchKey i x = false) :
    addItemToList its x = its ++ [x] := by
  induction its with
  | nil => rfl
  | cons i rest ih =>
    have hi := h i (List.mem_cons_self _ _)
    simp only [addItemToList, hi, Bool.false_eq_true, if_false, List.cons_append,
      List.cons.injEq, true_and]
    exact ih fun j hj => h j (List.mem_cons_of_mem i hj)

theorem addItemToList_decomp (pre post : List ItemDoc) (i x : ItemDoc)
    (hpre : ∀ j ∈ pre, matchKey j x = false) (hi : matchKey i x = true) :
    addItemToList (pre ++ i :: post) x =
      pre ++ { i with
        quantity := some (min 10 (i.quantity.getD 1 + x.quantity.getD 1)) } :: post := by
  induction pre with
  | nil => simp [addItemToList, hi]
  | cons j rest ih =>
    have hj := hpre j (List.mem_cons_self _ _)
    simp only [List.cons_append, addItemToList, hj, Bool.false_eq_true, if_false,
      List.cons.injEq, true_and]
    exact ih fun a ha => hpre a (List.mem_cons_of_mem j ha)

theorem itemKey_mem_addItemToList {its : List ItemDoc} {x : ItemDoc}
    {k : Option String × Option String}
    (h : k ∈ (addItemToList its x).map itemKey) :
    k ∈ its.map itemKey ∨ k = itemKey x := by
  induction its with
  | nil =>
    rcases List.mem_singleton.mp (by simpa [addItemToList] using h) with rfl
    right; rfl
  | cons i rest ih =>
    by_cases hm : matchKey i x = true
    · rw [addItemToList, if_pos hm, List.map_cons] at h
      rcases List.mem_cons.mp h with rfl | h2
      · left; exact List.mem_cons_self _ _
      · left; exact List.mem_cons_of_mem _ h2
    · rw [addItemToList, if_neg hm, List.map_cons] at h
      rcases List.mem_cons.mp h with rfl | h2
      · left; exact List.mem_cons_self _ _
      · rcases ih h2 with h3 | h3
        · left; exact List.mem_cons_of_mem _ h3
        · right; exact h3

theorem goodItem_iff {i : ItemDoc} :
    goodItem i = true ↔ ∃ q, i.quantity = some q ∧ 1 ≤ q ∧ q ≤ 10 := by
  cases hq : i.quantity with
  | none => simp [goodItem, hq]
  | some q => simp [goodItem, hq]

theorem goodItem_merge {i x : ItemDoc} (hi : goodItem i = true) (hx : goodItem x = true) :
    goodItem { i with
      quantity := some (min 10 (i.quantity.getD 1 + x.quantity.getD 1)) } = true := by
  obtain ⟨q, hq, hq1, hq10⟩ := goodItem_iff.mp hi
  obtain ⟨q', hq', hq'1, _⟩ := goodItem_iff.mp hx
  refine goodItem_iff.mpr ⟨min 10 (i.quantity.getD 1 + x.quantity.getD 1), rfl, ?_, ?_⟩
  · rw [hq, hq']
    simp only [Option.getD_some]
    exact le_min (by norm_num) (by linarith)
  · exact min_le_left _ _

theorem goodItems_addItemToList {its : List ItemDoc} {x : ItemDoc}
    (hg : goodItems its) (hx : goodItem x = true) :
    goodItems (addItemToList its x) := by
  induction its with
  | nil =>
    refine ⟨fun i hi => ?_, by simp [addItemToList]⟩
    rcases List.mem_singleton.mp (by simpa [addItemToList] using hi) with rfl
    exact hx
  | cons i rest ih =>
    obtain ⟨hall, hnd⟩ := hg
    rw [List.map_cons, List.nodup_cons] at hnd
    by_cases hm : matchKey i x = true
    · constructor
      · intro j hj
        rw [addItemToList, if_pos hm] at hj
        rcases List.mem_cons.mp hj with rfl | hjr
        · exact goodItem_merge (hall i (List.mem_cons_self _ _)) hx
        · exact hall j (List.mem_cons_of_mem _ hjr)
      · rw [addItemToList, if_pos hm, List.map_cons]
        exact List.nodup_cons.mpr ⟨hnd.1, hnd.2⟩
    · have ihr := ih ⟨fun j hj => hall j (List.mem_cons_of_mem _ hj), hnd.2⟩
      constructor
      · intro j hj
        rw [addItemToList, if_neg hm] at hj
        rcases List.mem_cons.mp hj with rfl | hjr
        · exact hall j (List.mem_cons_self _ _)
        · exact ihr.1 j hjr
      · rw [addItemToList, if_neg hm, List.map_cons]
        refine List.nodup_cons.mpr ⟨fun hmem => ?_, ihr.2⟩
        rcases itemKey_mem_addItemToList hmem with h1 | h1
        · exact hnd.1 h1
        · exact hm (matchKey_iff.mpr h1)

theorem goodItems_filter {its : List ItemDoc} (hg : goodItems its) (p : ItemDoc → Bool) :
    goodItems (its.filter p) :=
  ⟨fun i hi => hg.1 i (List.mem_of_mem_filter hi),
   List.Nodup.sublist ((List.filter_sublist its).map itemKey) hg.2⟩

theorem validItem_dumpItem {it : CartItem} (h : validItem it) :
    goodItem (dumpItem it) = true :=
  goodItem_iff.mpr ⟨it.quantity, rfl, h.1, h.2⟩

theorem cartInv_add {s : CartStore} (sid : String) {it : CartItem}
    (hInv : CartInv s) (hit : validItem it) : CartInv (add_to_cart s sid it) := by
  unfold add_to_cart
  cases hf : findCart s sid with
  | none =>
    intro c hc
    rcases List.mem_append.mp hc with hm | hm
    · exact hInv c hm
    · rcases List.mem_singleton.mp hm with rfl
      exact ⟨fun i hi => by
          rcases List.mem_singleton.mp hi with rfl
          exact validItem_dumpItem hit,
        by simp⟩
  | some cart =>
    intro c hc
    rcases mem_updateCartItems hc with hm | hm
    · exact hInv c hm
    · rw [hm]
      exact goodItems_addItemToList (hInv cart (findCart_mem hf)) (validItem_dumpItem hit)

theorem cartInv_remove {s : CartStore} (sid pid : String) (variant : Option String)
    (hInv : CartInv s) : CartInv (remove_from_cart s sid pid variant).1 := by
  unfold remove_from_cart
  cases hf : findCart s sid with
  | none => exact hInv
  | some cart =>
    intro c hc
    rcases mem_updateCartItems hc with hm | hm
    · exact hInv c hm
    · rw [hm]
      exact goodItems_filter (hInv cart (findCart_mem hf)) _

theorem length_filter_not {α : Type} (l : List α) (p : α → Bool) :
    (l.filter (fun a => !p a)).length = l.length - l.countP p := by
  induction l with
  | nil => rfl
  | cons a rest ih =>
    have hle := List.countP_le_length (p := p) (l := rest)
    by_cases hp : p a = true
    · simp only [List.filter_cons, hp, Bool.not_true, List.countP_cons, if_neg]
      simp [hp, ih]
    · simp only [List.filter_cons, List.countP_cons, Bool.not_eq_true] at *
      simp only [hp, Bool.not_false, if_pos, List.length_cons, cond_false]
      simp [hp, ih]
      omega

theorem get_cart_of_lookup {s : CartStore} {sid : String} {its : List ItemDoc}
    (h : lookupCart s sid = some its) :
    get_cart s sid = { items := its, subtotal := round2 (its.map lineAmount).sum } := by
  obtain ⟨c, hf, rfl⟩ := lookupCart_eq_some h
  unfold get_cart
  rw [hf]

/-! ## Claim theorems: cart engine -/

/-- C2: adding twice to an initially absent cart for the same session
with items sharing the (product_id, variant) key and valid quantities
q1, q2 leaves a single line for that key whose quantity is
min(10, q1 + q2); the excess over 10 is clamped away, not an error. -/
theorem add_twice_merges_with_cap (s : CartStore) (sid : String) (it1 it2 : CartItem)
    (habs : lookupCart s sid = none) (h1 : validItem it1) (h2 : validItem it2)
    (hpid : it2.product_id = it1.product_id) (hvar : it2.variant = it1.variant) :
    lookupCart (add_to_cart (add_to_cart s sid it1) sid it2) sid =
      some [{ dumpItem it1 with
        quantity := some (min 10 (it1.quantity + it2.quantity)) }] := by
  have step1 := lookupCart_add_new habs it1
  have step2 := lookupCart_add_existing step1 it2
  rw [step2]
  have hm : matchKey (dumpItem it1) (dumpItem it2) = true := by
    simp [matchKey, dumpItem, hpid, hvar]
  have hd := addItemToList_decomp [] [] (dumpItem it1) (dumpItem it2) (by simp) hm
  simp only [List.nil_append] at hd
  rw [hd]
  rfl

/-- Witness for the C2 theorem: 9 + 9 clamps to 10 and the first added
title and price survive. -/
theorem add_twice_merges_with_cap_witness :
    lookupCart (add_to_cart (add_to_cart [] "s"
      { product_id := "p1", title := "A", price := 100, quantity := 9 }) "s"
      { product_id := "p1", title := "B", price := 999, quantity := 9 }) "s" =
      some [{ product_id := some "p1", title := some "A", price := some 100,
              image := none, quantity := some 10, variant := none }] := by
  have h := add_twice_merges_with_cap [] "s"
    { product_id := "p1", title := "A", price := 100, quantity := 9 }
    { product_id := "p1", title := "B", price := 999, quantity := 9 }
    (by rfl) (by exact ⟨by decide, by decide⟩) (by exact ⟨by decide, by decide⟩) rfl rfl
  rw [h]
  decide

/-- C3: every cart store reachable from the empty store by validated
`add_to_cart` and `remove_from_cart` operations satisfies the invariant:
the quantity of each line is present and in [1,10], and no two lines of one
cart share a (product_id, variant) key. -/
theorem reachable_cart_invariant (s : CartStore) (h : Reachable s) : CartInv s := by
  induction h with
  | init => intro c hc; simp at hc
  | add sid hit _ ih => exact cartInv_add sid ih hit
  | remove sid pid variant _ ih => exact cartInv_remove sid pid variant ih

/-- Witness for the C3 theorem on a concrete reachable store. -/
theorem reachable_cart_invariant_witness :
    CartInv (add_to_cart [] "s"
      { product_id := "p1", title := "A", price := 100, quantity := 2 }) :=
  reachable_cart_invariant _
    (Reachable.add "s" ⟨by decide, by decide⟩ Reachable.init)

/-- C4: when `add_to_cart` merges into the line whose (product_id,
variant) key matches the incoming item, only the quantity field of that line
changes (its title, price, image, product_id and variant are those of the
existing line — first-write-wins) and every other line of the cart is
unchanged in place. -/
theorem add_merge_frame (s : CartStore) (sid : String) (it : CartItem)
    (pre post : List ItemDoc) (i : ItemDoc)
    (hc : lookupCart s sid = some (pre ++ i :: post))
    (hpre : ∀ j ∈ pre, matchKey j (dumpItem it) = false)
    (hi : matchKey i (dumpItem it) = true) :
    lookupCart (add_to_cart s sid it) sid =
      some (pre ++ { i with
        quantity := some (min 10 (i.quantity.getD 1 + it.quantity)) } :: post) := by
  rw [lookupCart_add_existing hc it,
    addItemToList_decomp pre post i (dumpItem it) hpre hi]
  rfl

/-- Witness for the C4 theorem: merging into the first of two lines
updates only its quantity and leaves the second line untouched. -/
theorem add_merge_frame_witness :
    lookupCart (add_to_cart
      [⟨"s", [{ product_id := some "p1", title := some "A", price := some 100,
                quantity := some 1 },
              { product_id := some "p2", title := some "C", price := some 7,
                quantity := some 3 }]⟩]
      "s" { product_id := "p1", title := "B", price := 999, quantity := 9 }) "s" =
      some [{ product_id := some "p1", title := some "A", price := some 100,
              quantity := some 10 },
            { product_id := some "p2", title := some "C", price := some 7,
              quantity := some 3 }] := by
  have h := add_merge_frame
    [⟨"s", [{ product_id := some "p1", title := some "A", price := some 100,
              quantity := some 1 },
            { product_id := some "p2", title := some "C", price := some 7,
              quantity := some 3 }]⟩]
    "s" { product_id := "p1", title := "B", price := 999, quantity := 9 }
    [] [{ product_id := some "p2", title := some "C", price := some 7,
          quantity := some 3 }]
    { product_id := some "p1", title := some "A", price := some 100, quantity := some 1 }
    (by rfl) (by decide) (by decide)
  rw [h]
  decide

/-- C5: `remove_from_cart` always returns "ok"; on an absent cart it is a
complete no-op on the store; on an existing cart it persists exactly the
original sequence with every (product_id, variant)-matching line removed,
the rest kept in order, and removing a key present exactly once shrinks
the line count by exactly 1. -/
theorem remove_item_spec (s : CartStore) (sid pid : String) (variant : Option String) :
    (remove_from_cart s sid pid variant).2 = "ok" ∧
    (lookupCart s sid = none → (remove_from_cart s sid pid variant).1 = s) ∧
    ∀ its, lookupCart s sid = some its →
      lookupCart (remove_from_cart s sid pid variant).1 sid =
        some (its.filter (fun i => !(i.product_id == some pid && i.variant == variant))) ∧
      (its.countP (fun i => i.product_id == some pid && i.variant == variant) = 1 →
        (its.filter (fun i => !(i.product_id == some pid && i.variant == variant))).length =
          its.length - 1) := by
  refine ⟨?_, ?_, ?_⟩
  · unfold remove_from_cart
    cases hf : findCart s sid <;> rfl
  · intro h
    unfold remove_from_cart
    rw [lookupCart_eq_none h]
  · intro its h
    obtain ⟨c, hf, rfl⟩ := lookupCart_eq_some h
    refine ⟨?_, fun hcount => ?_⟩
    · unfold remove_from_cart
      rw [hf]
      exact lookupCart_update hf _
    · rw [length_filter_not, hcount]

/-- Witness for the C5 theorem: removing a key present once keeps the
other line and returns "ok"; removing from an absent cart is a no-op. -/
theorem remove_item_spec_witness :
    lookupCart (remove_from_cart
      [⟨"s", [{ product_id := some "p1", quantity := some 1 },
              { product_id := some "p2", quantity := some 2 }]⟩] "s" "p1" none).1 "s" =
      some [{ product_id := some "p2", quantity := some 2 }] ∧
    (remove_from_cart
      [⟨"s", [{ product_id := some "p1", quantity := some 1 },
              { product_id := some "p2", quantity := some 2 }]⟩] "s" "p1" none).2 = "ok" ∧
    (remove_from_cart [] "absent" "p1" none).1 = [] := by
  have h := remove_item_spec
    [⟨"s", [{ product_id := some "p1", quantity := some 1 },
            { product_id := some "p2", quantity := some 2 }]⟩] "s" "p1" none
  have habs := remove_item_spec [] "absent" "p1" none
  refine ⟨?_, h.1, habs.2.1 (by rfl)⟩
  have h2 := (h.2.2 [{ product_id := some "p1", quantity := some 1 },
    { product_id := some "p2", quantity := some 2 }] (by rfl)).1
  rw [h2]
  decide

/-- C6: `get_cart` returns an empty view (no items, subtotal 0) when no
cart document exists, and otherwise returns the stored items with
subtotal = round(Σ price_i * quantity_i, 2) over the per-line price and
quantity fields. -/
theorem get_cart_subtotal_rounds (s : CartStore) (sid : String) :
    (lookupCart s sid = none → get_cart s sid = { items := [], subtotal := 0 }) ∧
    ∀ its, lookupCart s sid = some its →
      ∀ price : ItemDoc → ℚ, ∀ qty : ItemDoc → ℤ,
        (∀ i ∈ its, i.price = some (price i) ∧ i.quantity = some (qty i)) →
        get_cart s sid =
          { items := its,
            subtotal := round2 ((its.map (fun i => price i * ((qty i : ℤ) : ℚ))).sum) } := by
  constructor
  · intro h
    unfold get_cart
    rw [lookupCart_eq_none h]
  · intro its h price qty hfields
    rw [get_cart_of_lookup h]
    have he : its.map lineAmount = its.map (fun i => price i * ((qty i : ℤ) : ℚ)) :=
      List.map_congr_left fun i hi => by
        obtain ⟨hp, hq⟩ := hfields i hi
        rw [lineAmount, hp, hq]
        rfl
    rw [he]

/-- Witness for the C6 theorem: one line at price 100, quantity 10 gives
subtotal 1000, and the absent session gives the empty view. -/
theorem get_cart_subtotal_rounds_witness :
    get_cart [⟨"s", [{ product_id := some "p1", price := some 100,
                       quantity := some 10 }]⟩] "s" =
      { items := [{ product_id := some "p1", price := some 100, quantity := some 10 }],
        subtotal := 1000 } ∧
    get_cart [] "s" = { items := [], subtotal := 0 } := by
  have h := (get_cart_subtotal_rounds [⟨"s", [{ product_id := some "p1",
                                                price := some 100,
                                                quantity := some 10 }]⟩] "s").2
    [{ product_id := some "p1", price := some 100, quantity := some 10 }] (by rfl)
    (fun _ => 100) (fun _ => 10) (by decide)
  have habs := (get_cart_subtotal_rounds [] "s").1 (by rfl)
  refine ⟨?_, habs⟩
  rw [h]
  norm_num [round2, roundHalfEven]

/-- C7: when the incoming (product_id, variant) key matches no
existing line, `add_to_cart` appends it at the end of the items sequence,
leaving every pre-existing line unchanged and growing the line count by
exactly 1. -/
theorem add_new_key_appends (s : CartStore) (sid : String) (it : CartItem)
    (its : List ItemDoc) (h : lookupCart s sid = some its)
    (hno : ∀ i ∈ its, matchKey i (dumpItem it) = false) :
    lookupCart (add_to_cart s sid it) sid = some (its ++ [dumpItem it]) ∧
    (its ++ [dumpItem it]).length = its.length + 1 := by
  refine ⟨?_, by simp⟩
  rw [lookupCart_add_existing h it, addItemToList_no_match hno]

/-- Witness for the C7 theorem: a fresh key is appended after the
existing line. -/
theorem add_new_key_appends_witness :
    lookupCart (add_to_cart [⟨"s", [{ product_id := some "p1", quantity := some 1 }]⟩]
      "s" { product_id := "p2", title := "B", price := 1, quantity := 1 }) "s" =
      some [{ product_id := some "p1", quantity := some 1 },
        dumpItem { product_id := "p2", title := "B", price := 1, quantity := 1 }] := by
  have h := add_new_key_appends [⟨"s", [{ product_id := some "p1", quantity := some 1 }]⟩]
    "s" { product_id := "p2", title := "B", price := 1, quantity := 1 }
    [{ product_id := some "p1", quantity := some 1 }] (by rfl) (by decide)
  exact h.1

/-- C10: `get_cart` is total over malformed stored line items: the
subtotal is computed with a line missing its price contributing 0 and a
line missing its quantity contributing quantity 1, so no stored item
shape makes it fail. -/
theorem get_cart_total_on_malformed (s : CartStore) (sid : String) :
    (∀ its, lookupCart s sid = some its →
      get_cart s sid = { items := its, subtotal := round2 ((its.map lineAmount).sum) }) ∧
    (∀ i : ItemDoc, i.price = none → lineAmount i = 0) ∧
    (∀ i : ItemDoc, i.quantity = none → lineAmount i = i.price.getD 0) := by
  refine ⟨fun its h => get_cart_of_lookup h, fun i h => ?_, fun i h => ?_⟩
  · rw [lineAmount, h]
    simp
  · rw [lineAmount, h]
    simp

/-- Witness for the C10 theorem on a cart of two malformed lines. -/
theorem get_cart_total_on_malformed_witness :
    get_cart [⟨"m", [({ product_id := some "p1" } : ItemDoc),
        ({ price := some (5/2) } : ItemDoc)]⟩] "m" =
      { items := [({ product_id := some "p1" } : ItemDoc),
          ({ price := some (5/2) } : ItemDoc)],
        subtotal := round2 ((([({ product_id := some "p1" } : ItemDoc),
          ({ price := some (5/2) } : ItemDoc)]).map lineAmount).sum) } ∧
    lineAmount ({ product_id := some "p1" } : ItemDoc) = 0 ∧
    lineAmount ({ price := some (5/2) } : ItemDoc) = 5/2 := by
  have h := get_cart_total_on_malformed [⟨"m", [({ product_id := some "p1" } : ItemDoc),
    ({ price := some (5/2) } : ItemDoc)]⟩] "m"
  refine ⟨h.1 _ (by rfl), h.2.1 _ rfl, ?_⟩
  rw [h.2.2 ({ price := some (5/2) } : ItemDoc) rfl]
  rfl

end Storefront
